import Mathlib

/-!
Verification of the `maslibpy` generate/critique/grade reasoning loop
(`maslibpy/reasoning/prompt_based.py`) against its natural-language
specification.

The Python code is shallowly embedded:
* Python values that cross the backend boundary (message contents, grade
  results) become the inductive type `PyVal`; dictionary values are the
  flat type `DVal`.
* The mutable state of one loop invocation (the `agent.messages`
  conversation list, a per-backend count of `invoke` calls, and the
  accumulating trace string `res`) becomes the structure `St`, threaded
  explicitly.
* A language-model backend is a record of its capability flags, its model
  name and a response script: the value (or exception) its `invoke`
  returns on the n-th call made to it.  The loop's control flow never
  inspects the text sent to the backend, so a positional script is a
  faithful oracle.
* Raising Python code becomes `Except (String × St)`: an exception name
  together with the state at the moment of the raise (Python mutations
  performed before a raise survive it).
* File-system effects are reflected in the result type `RunOut`: the
  normal exit carries the path and content of the single trace-file
  write; the error exit carries none, because the write statement is
  only reached on normal loop exit.
-/

/-- Characters Python's `str.strip()` removes (ASCII whitespace). -/
def isPyWS (c : Char) : Bool :=
  c = ' ' || c = '\t' || c = '\n' || c = '\r' || c = '\x0b' || c = '\x0c'

/-- `str.strip()`: drop leading and trailing whitespace. -/
def pyStrip (s : String) : String :=
  String.mk (((s.data.dropWhile isPyWS).reverse.dropWhile isPyWS).reverse)

/-- `str.lower()` (ASCII). -/
def pyLower (s : String) : String :=
  String.mk (s.data.map Char.toLower)

/-- Occurrence test on character lists: `containsL pat l` is true iff `pat`
occurs contiguously in `l`.  Embeds Python's `pat in l`. -/
def containsL (pat : List Char) : List Char → Bool
  | [] => pat.isEmpty
  | c :: rest => pat.isPrefixOf (c :: rest) || containsL pat rest

/-- Python's `pat in s` on strings. -/
def pyContains (s pat : String) : Bool := containsL pat.data s.data

/-- Python's `s.rfind(pat)` on character lists: the largest index at which
`pat` occurs, or `none`.  (`s.rfind` returns `-1` exactly when this returns
`none`; the source only tests `ind >= 0`.) -/
def rfindL (pat : List Char) : List Char → Option Nat
  | [] => if pat.isEmpty then some 0 else none
  | c :: rest =>
    match rfindL pat rest with
    | some i => some (i + 1)
    | none => if pat.isPrefixOf (c :: rest) then some 0 else none

/-- Python's `str.format(query=q)` for templates whose only placeholder is
the literal `{query}`: every occurrence is replaced by `q`.  (Other
`str.format` features — `\x7b\x7b` escapes, further fields — are not used by the
source's templates and are not modelled.) -/
def substQuery (rep : List Char) : List Char → List Char
  | [] => []
  | '\x7b' :: 'q' :: 'u' :: 'e' :: 'r' :: 'y' :: '\x7d' :: rest => rep ++ substQuery rep rest
  | c :: rest => c :: substQuery rep rest

/-- `agent.system_prompt.format(query=q)`. -/
def fmtQuery (template q : String) : String :=
  String.mk (substQuery q.data template.data)

/-- Python's `s.split(sep)` for a one-character separator: splits at every
occurrence, keeping empty segments; never returns the empty list. -/
def pySplitChar (sep : Char) : List Char → List (List Char)
  | [] => [[]]
  | c :: rest =>
    if c = sep then [] :: pySplitChar sep rest
    else
      match pySplitChar sep rest with
      | h :: t => (c :: h) :: t
      | [] => [[c]]

/-- Values of Python dictionary entries appearing in this program
(role/content strings, the boolean `status` field). -/
inductive DVal
  | dnone
  | dstr (s : String)
  | dbool (b : Bool)
deriving DecidableEq, Repr

/-- The Python values that flow through the loop: `None`, strings, booleans,
`GradeNode` pydantic objects, `UserMessage`/`AIMessage` objects, and raw
role/content dictionaries. -/
inductive PyVal
  | vnone
  | vstr (s : String)
  | vbool (b : Bool)
  | vnode (status : Bool)
  | vuser (content : PyVal)
  | vai (content : PyVal)
  | vdict (es : List (String × DVal))
deriving DecidableEq, Repr

/-- Python truthiness of the values above (`if updates_res:`,
`if grade_output:`).  `None` and empty strings/dicts are falsy; objects are
truthy. -/
def truthy : PyVal → Bool
  | .vnone => false
  | .vstr s => s ≠ ""
  | .vbool b => b
  | .vnode _ => true
  | .vuser _ => true
  | .vai _ => true
  | .vdict es => es ≠ []

/-- Rendering of a dictionary value inside an f-string. -/
def pyFormatD : DVal → String
  | .dnone => "None"
  | .dstr s => s
  | .dbool b => if b then "True" else "False"

/-- Embedding of a dictionary value back into the value universe (Python
returns the dictionary's entry itself from `grade_result["status"]`). -/
def DVal.toPy : DVal → PyVal
  | .dnone => .vnone
  | .dstr s => .vstr s
  | .dbool b => .vbool b

/-- Rendering of a value inside an f-string (`f"...\x7bv\x7d..."`).  Strings,
`None` and booleans are rendered exactly as Python does; the `repr`-style
rendering of message objects, `GradeNode`s and dictionaries (which never
reaches a trace in the verified scenarios) is abstracted to a fixed
deterministic form. -/
def pyFormat : PyVal → String
  | .vnone => "None"
  | .vstr s => s
  | .vbool b => if b then "True" else "False"
  | .vnode b => "status=" ++ (if b then "True" else "False")
  | .vuser c => "role=\x27user\x27 content=\x27" ++ pyFormat c ++ "\x27"
  | .vai c => "role=\x27assistant\x27 content=\x27" ++ pyFormat c ++ "\x27"
  | .vdict es =>
    "\x7b" ++ String.intercalate ", "
      (es.map (fun p => "\x27" ++ p.1 ++ "\x27: " ++ pyFormatD p.2)) ++ "\x7d"

/-- Rendering of a possibly-`None` Python variable inside an f-string. -/
def pyFormatOpt : Option PyVal → String
  | none => "None"
  | some v => pyFormat v

/-- A language-model backend handle (`maslibpy.llm.llm.LLM` and friends), as
consumed by the reasoning loop: capability flags (`hasattr(llm, flag) and
llm.flag` collapsed into one boolean, absence meaning unsupported), the model
name used for trace naming, and the response script: `script n` is the
content produced by the n-th `invoke` call on this backend, or an exception.
The extra `response_format`/`tools` arguments of `invoke` do not influence
which scripted response arrives and are dropped. -/
structure LLMB where
  supports_response_schema : Bool
  supports_parallel_function_calling : Bool
  model_name : String
  script : Nat → Except String PyVal

/-- The read-only agent configuration consumed by `PromptBased`. -/
structure Agent where
  max_iterations : Nat
  system_prompt : String
  prompt_type : String
  prompt_pattern : String
  session_id : String
  generator_llm : LLMB
  critique_llm : LLMB

/-- The backend a step addresses: `true` is `agent.generator_llm`,
`false` is `agent.critique_llm`. -/
def llmOf (agent : Agent) (isGen : Bool) : LLMB :=
  if isGen then agent.generator_llm else agent.critique_llm

/-- The mutable state of one loop invocation: the `agent.messages`
conversation list, how many `invoke` calls each backend has received, and
the accumulated trace string `res`. -/
structure St where
  messages : List PyVal
  genCalls : Nat
  critCalls : Nat
  res : String
deriving DecidableEq, Repr

/-- The state at the start of `PromptBased.invoke`: caller-seeded history,
no backend calls yet, empty trace. -/
def initSt (ms0 : List PyVal) : St := { messages := ms0, genCalls := 0, critCalls := 0, res := "" }

/-- A query as passed to `generate`/`update_chat_history`: either a raw
string or a list of already-built Python values. -/
inductive Query
  | qstr (s : String)
  | qlist (l : List PyVal)

/-- `PromptBased.update_chat_history`.  Errors are the Python exceptions the
source can raise here: `IndexError` for `query[-1]` on an empty list and
`KeyError` for a missing dictionary key. -/
def PromptBased.update_chat_history (agent : Agent) (q : Query) (st : St) : Except (String × St) St :=
  match q with
  | .qstr s =>
    .ok { st with messages := st.messages ++ [.vuser (.vstr (fmtQuery agent.system_prompt s))] }
  | .qlist l =>
    match l.getLast? with
    | none => .error ("IndexError", st)
    | some last =>
      match last with
      | .vuser _ => .ok { st with messages := st.messages ++ l }
      | .vdict es =>
        match List.lookup "role" es with
        | none => .error ("KeyError", st)
        | some rv =>
          if rv = .dstr "user" then
            match List.lookup "content" es with
            | none => .error ("KeyError", st)
            | some cv =>
              .ok { st with messages :=
                st.messages ++
                  (l.dropLast ++ [.vuser (.vstr (fmtQuery agent.system_prompt (pyFormatD cv)))]) }
          else .ok { st with messages := st.messages ++ l }
      | _ => .ok st

/-- `PromptBased.generate`: update the chat history, invoke the selected
backend, and when the returned content is truthy append it as an
`AIMessage` and return it; otherwise fall off the end (Python returns
`None`, modelled as `none`). -/
def PromptBased.generate (agent : Agent) (isGen : Bool) (q : Query) (st : St) :
    Except (String × St) (Option PyVal × St) :=
  match PromptBased.update_chat_history agent q st with
  | .error e => .error e
  | .ok st1 =>
    let idx := if isGen then st1.genCalls else st1.critCalls
    let st2 := if isGen then { st1 with genCalls := st1.genCalls + 1 }
               else { st1 with critCalls := st1.critCalls + 1 }
    match (llmOf agent isGen).script idx with
    | .error e => .error (e, st2)
    | .ok v =>
      if truthy v then .ok (some v, { st2 with messages := st2.messages ++ [.vai v] })
      else .ok (none, st2)

/-- The fixed grading prompt built by `PromptBased.grade` (the f-string,
with the three values already rendered in). -/
def gradePrompt (query generated critiqued : String) : String :=
  "\n            You are a boolean evaluator that must only return True or False without any additional text or explanation.\n            Evaluate the response based on these criteria:\n            1. Accuracy: Is the response factually correct?\n            2. Completeness: Does it fully address all aspects of the query?\n            3. Clarity: Is it well-structured and easy to understand?\n            4. Relevance: Does it directly address the topic asked?\n\n            Evaluate:\n            - **User Query**: " ++
    query ++
    "\n            - **Generated Response**: " ++
    generated ++
    "\n            - **Critiqued Response**: " ++
    critiqued ++
    "\n\n            Return exactly \x27True\x27 if all criteria are met, or exactly \x27False\x27 if any criterion fails.\n            Do not include any reasoning, explanations, or additional characters - your entire output must be either the word \x27True\x27 or the word \x27False\x27.\n            "

/-- The fixed critique prompt built by `PromptBased.critique`. -/
def critiquePrompt (original_query response : String) : String :=
  "Evaluate this response for \"" ++ original_query ++ "\":\n\n        " ++ response ++
    "\n\n        Check:\n        1. Accuracy: Any errors?\n        2. Completeness: Missing key info?\n        3. Clarity: Clear and logical?\n\n        If accurate and complete, return exactly: " ++
    response ++ "\n        Otherwise, provide corrected version."

/-- The plain-text decision of `PromptBased.grade` on the (string) reply:
`result_text = grade_result.strip().lower()`, then `True` iff the text
equals `true`, or contains `true` and not `false`. -/
def gradeTextDecision (s : String) : Bool :=
  let t := pyLower (pyStrip s)
  if t = "true" then true
  else if pyContains t "true" && !(pyContains t "false") then true
  else false

/-- The part of `PromptBased.grade` after the structured-schema `if`: the
function-calling branch (guarded by `llm.supports_parallel_function_calling`)
with its internal dict/text/False fallbacks, else the plain-text branch.
Non-string plain-text replies (including `None` from an empty generation)
raise `AttributeError` at `grade_result.strip()`. -/
def gradeTail (agent : Agent) (isGen : Bool) (gp : String) (st : St) :
    Except (String × St) (PyVal × St) :=
  if (llmOf agent isGen).supports_parallel_function_calling then
    match PromptBased.generate agent isGen (.qstr gp) st with
    | .error e => .error e
    | .ok (r, st1) =>
      match r with
      | some (.vdict es) =>
        match List.lookup "status" es with
        | some v => .ok (v.toPy, st1)
        | none => .ok (.vbool false, st1)
      | some (.vstr s) => .ok (.vbool (pyContains (pyLower s) "true"), st1)
      | _ => .ok (.vbool false, st1)
  else
    match PromptBased.generate agent isGen (.qstr gp) st with
    | .error e => .error e
    | .ok (some (.vstr s), st1) => .ok (.vbool (gradeTextDecision s), st1)
    | .ok (_, st1) => .error ("AttributeError", st1)

/-- `PromptBased.grade`: the capability dispatch.  The structured-schema
path is guarded by `llm.supports_response_schema` together with
`agent.critique_llm.supports_parallel_function_calling`, exactly as in the
source; when its result is not a `GradeNode` the Python control flow simply
continues into the following `if`, i.e. into `gradeTail`. -/
def PromptBased.grade (agent : Agent) (isGen : Bool) (query generated critiqued : String) (st : St) :
    Except (String × St) (PyVal × St) :=
  let gp := gradePrompt query generated critiqued
  if (llmOf agent isGen).supports_response_schema &&
      agent.critique_llm.supports_parallel_function_calling then
    match PromptBased.generate agent isGen (.qstr gp) st with
    | .error e => .error e
    | .ok (some (.vnode b), st1) => .ok (.vbool b, st1)
    | .ok (_, st1) => gradeTail agent isGen gp st1
  else gradeTail agent isGen gp st

/-- `PromptBased.critique`: build the critique prompt and route it through
`generate` on the given backend. -/
def PromptBased.critique (agent : Agent) (isGen : Bool) (response : String) (original_query : String)
    (st : St) : Except (String × St) (Option PyVal × St) :=
  PromptBased.generate agent isGen (.qstr (critiquePrompt original_query response)) st

/-- The literal marker searched by `generated_response.rfind("Final Answer")`. -/
def finalMarker : List Char := "Final Answer".data

/-- The "Final Answer" extraction step of `PromptBased.invoke`: slice from
the last occurrence of the marker plus `len("Final Answer:")` characters;
absent marker, the response is unchanged. -/
def extractFinal (s : String) : String :=
  match rfindL finalMarker s.data with
  | none => s
  | some i => String.mk (s.data.drop (i + "Final Answer:".length))

/-- One epoch header of the trace. -/
def epochHeader (i1 : Nat) : String := "===== Epoch " ++ toString i1 ++ " =====\n\n"

/-- The `"=" * 100` separator appended after a non-accepted iteration. -/
def sepLine : String := String.mk (List.replicate 100 '=') ++ "\n\n"

/-- The trace entry appended by the `except` clause of `PromptBased.invoke`
before the exception is re-raised. -/
def errEntry (e : String) (i1 : Nat) : String :=
  "\n\n**Error occurred " ++ e ++ " in iteration " ++ toString i1 ++ "**\n\n"

/-- The `try` body of one iteration of `PromptBased.invoke` (iteration
index `i`, 0-based): generate, record, Final-Answer extraction (raising on
`None` content and on non-string content, where `.rfind` has no meaning),
critique, grade, record, and append the separator unless the grade output
is truthy.  Returns the new state, the grade output and the (post-
extraction) generated response. -/
def PromptBased.cycleTry (agent : Agent) (query : String) (i : Nat) (st0 : St) :
    Except (String × St) (St × PyVal × String) :=
  match PromptBased.generate agent true (.qstr query) st0 with
  | .error e => .error e
  | .ok (g, st1) =>
    let st2 := { st1 with res :=
      st1.res ++ epochHeader (i + 1) ++ "**Generated Response**:\n\n" ++ pyFormatOpt g ++ "\n\n" }
    match g with
    | none => .error ("Exception", st2)
    | some (.vstr s) =>
      let gex := extractFinal s
      match PromptBased.critique agent false gex query st2 with
      | .error e => .error e
      | .ok (c, st3) =>
        let st4 := { st3 with res :=
          st3.res ++ "\n\n**Critiqued Response**:\n\n" ++ pyFormatOpt c ++ "\n\n" }
        match PromptBased.grade agent false query gex (pyFormatOpt c) st4 with
        | .error e => .error e
        | .ok (go, st5) =>
          let st6 := { st5 with res := st5.res ++ "\n\n**Grade node output**\n\n" ++ pyFormat go }
          if truthy go then .ok (st6, go, gex)
          else .ok ({ st6 with res := st6.res ++ sepLine }, go, gex)
    | some _ => .error ("AttributeError", st2)

/-- One iteration of `PromptBased.invoke` including its `except` clause:
on an exception the error entry is appended to the trace and the same
exception is re-raised. -/
def PromptBased.cycle (agent : Agent) (query : String) (i : Nat) (st0 : St) :
    Except (String × St) (St × PyVal × String) :=
  match PromptBased.cycleTry agent query i st0 with
  | .error (e, st) => .error (e, { st with res := st.res ++ errEntry e (i + 1) })
  | .ok r => .ok r

/-- The `for` loop of `PromptBased.invoke`: `n` iterations remain, `i` is
the current 0-based index, `last` is the current value of the Python
variable `generated_response` (`none` while still unassigned).  The loop
`break`s exactly when a grade output is truthy. -/
def PromptBased.loop (agent : Agent) (query : String) :
    Nat → Nat → St → Option String → Except (String × St) (St × Option String)
  | 0, _, st, last => .ok (st, last)
  | n + 1, i, st, _last =>
    match PromptBased.cycle agent query i st with
    | .error e => .error e
    | .ok (st', go, g) =>
      if truthy go then .ok (st', some g) else PromptBased.loop agent query n (i + 1) st' (some g)

/-- The persisted trace path built by `PromptBased.invoke`:
`prompt_results/{prompt_type}_{prompt_pattern}_G_{model_name.split("/")[-1]}_C_{...}_{session_id.split("-")[0]}_.txt`. -/
def savePath (agent : Agent) : String :=
  "prompt_results/" ++ agent.prompt_type ++ "_" ++ agent.prompt_pattern ++ "_G_" ++
    String.mk ((pySplitChar '/' agent.generator_llm.model_name.data).getLastD []) ++ "_C_" ++
    String.mk ((pySplitChar '/' agent.critique_llm.model_name.data).getLastD []) ++ "_" ++
    String.mk ((pySplitChar '-' agent.session_id.data).headD []) ++ "_.txt"

/-- The final-output and elapsed-time block appended to the trace after the
loop.  Wall-clock time is not statable; the already-formatted elapsed
string is a parameter. -/
def finalBlock (g : String) (elapsed : String) : String :=
  "\n\n**Final Output**:\n\n" ++ g ++ "\n\nResponse Time:" ++ elapsed ++ " seconds"

/-- The outcome of `PromptBased.invoke`: on normal exit the returned string
plus the one file write (path and content); on an exception, the exception
name and the state at propagation time — no file write occurs on this
path. -/
inductive RunOut
  | ok (final : String) (path : String) (fileContent : String) (st : St)
  | err (e : String) (st : St)
deriving Repr

/-- `PromptBased.invoke`: run the loop from a caller-seeded history; on
normal exit append the final block and write the trace; `max_iterations = 0`
leaves `generated_response` unassigned and raises `NameError` before the
write. -/
def PromptBased.invoke (agent : Agent) (query : String) (ms0 : List PyVal) (elapsed : String) : RunOut :=
  match PromptBased.loop agent query agent.max_iterations 0 (initSt ms0) none with
  | .error (e, st) => .err e st
  | .ok (st, none) => .err "NameError" st
  | .ok (st, some g) => .ok g (savePath agent) (st.res ++ finalBlock g elapsed) st

/-! ### Projections used to state concrete facts about outcomes -/

/-- State carried by an `update_chat_history` outcome (ok or raised). -/
def uchSt (r : Except (String × St) St) : St :=
  match r with
  | .ok s => s
  | .error (_, s) => s

/-- State carried by a `generate` outcome (ok or raised). -/
def genSt (r : Except (String × St) (Option PyVal × St)) : St :=
  match r with
  | .ok (_, s) => s
  | .error (_, s) => s

/-- Exception name of a `grade` outcome, when it raised. -/
def gradeErrName (r : Except (String × St) (PyVal × St)) : Option String :=
  match r with
  | .error (e, _) => some e
  | .ok _ => none

/-- Value of a `grade` outcome, when it returned. -/
def gradeVal (r : Except (String × St) (PyVal × St)) : Option PyVal :=
  match r with
  | .ok (v, _) => some v
  | .error _ => none

/-- Critic-backend call count after a `grade` outcome that returned. -/
def gradeCritCalls (r : Except (String × St) (PyVal × St)) : Option Nat :=
  match r with
  | .ok (_, s) => some s.critCalls
  | .error _ => none

/-- State carried by a `cycle`/`cycleSeq` outcome (ok or raised). -/
def seqSt (r : Except (String × St) (St × PyVal × String)) : St :=
  match r with
  | .ok (s, _, _) => s
  | .error (_, s) => s

/-- Grade output of a completed cycle. -/
def cycGo (r : Except (String × St) (St × PyVal × String)) : Option PyVal :=
  match r with
  | .ok (_, go, _) => some go
  | .error _ => none

/-- Post-extraction generated response of a completed cycle. -/
def cycGex (r : Except (String × St) (St × PyVal × String)) : Option String :=
  match r with
  | .ok (_, _, g) => some g
  | .error _ => none

/-- The string returned to the caller by a normal `invoke` exit. -/
def runFinal (r : RunOut) : Option String :=
  match r with
  | .ok f _ _ _ => some f
  | .err _ _ => none

/-- The exception propagated by a failed `invoke`. -/
def runErrName (r : RunOut) : Option String :=
  match r with
  | .err e _ => some e
  | .ok _ _ _ _ => none

/-! ### Occurrence lemmas for `containsL` and `rfindL` -/

theorem containsL_iff (pat : List Char) :
    ∀ l, containsL pat l = true ↔ ∃ j, pat <+: l.drop j := by
  intro l
  induction l with
  | nil =>
    cases pat with
    | nil => simp [containsL]
    | cons a as => simp [containsL, List.isEmpty]
  | cons c rest ih =>
    constructor
    · intro h
      rcases (by simpa [containsL] using h : pat <+: c :: rest ∨ containsL pat rest = true) with h1 | h2
      · exact ⟨0, by simpa using h1⟩
      · rcases ih.mp h2 with ⟨j, hj⟩
        exact ⟨j + 1, by simpa using hj⟩
    · rintro ⟨j, hj⟩
      cases j with
      | zero =>
        simp [containsL]
        left
        simpa using hj
      | succ j' =>
        simp [containsL]
        right
        rw [ih]
        exact ⟨j', by simpa using hj⟩

theorem rfindL_none_iff (pat : List Char) :
    ∀ l, rfindL pat l = none ↔ containsL pat l = false := by
  intro l
  induction l with
  | nil =>
    cases pat with
    | nil => simp [rfindL, containsL, List.isEmpty]
    | cons a as => simp [rfindL, containsL, List.isEmpty]
  | cons c rest ih =>
    cases h : rfindL pat rest with
    | some i =>
      have hc : containsL pat rest = true := by
        cases hcc : containsL pat rest with
        | false => exact absurd (ih.mpr hcc) (by simp [h])
        | true => rfl
      simp [rfindL, h, containsL, hc]
    | none =>
      have hc : containsL pat rest = false := ih.mp h
      simp [rfindL, h, containsL, hc]
      rw [Bool.eq_false_iff]
      simp

theorem rfindL_some_prefix (pat : List Char) :
    ∀ l i, rfindL pat l = some i → pat <+: l.drop i := by
  intro l
  induction l with
  | nil =>
    intro i h
    cases pat with
    | nil =>
      simp [rfindL] at h
      simp [← h]
    | cons a as => simp [rfindL, List.isEmpty] at h
  | cons c rest ih =>
    intro i h
    cases hr : rfindL pat rest with
    | some i' =>
      simp [rfindL, hr] at h
      subst h
      simpa using ih i' hr
    | none =>
      simp [rfindL, hr] at h
      rcases h with ⟨hp, hi⟩
      subst hi
      simpa using hp

theorem prefix_drop_le_rfindL (pat : List Char) (hne : pat ≠ []) :
    ∀ l j, pat <+: l.drop j → ∃ i, rfindL pat l = some i ∧ j ≤ i := by
  intro l
  induction l with
  | nil =>
    intro j h
    rcases pat with _ | ⟨a, as⟩
    · exact absurd rfl hne
    · simp at h
  | cons c rest ih =>
    intro j h
    cases j with
    | zero =>
      simp at h
      cases hr : rfindL pat rest with
      | some i' => exact ⟨i' + 1, by simp [rfindL, hr], Nat.zero_le _⟩
      | none => exact ⟨0, by simp [rfindL, hr, h], Nat.le_refl 0⟩
    | succ j' =>
      have h' : pat <+: rest.drop j' := by simpa using h
      rcases ih j' h' with ⟨i', hr, hle⟩
      exact ⟨i' + 1, by simp [rfindL, hr], Nat.succ_le_succ hle⟩

theorem head_mismatch_not_prefix {a b : Char} {p l : List Char} (h : a ≠ b) :
    ¬ (a :: p) <+: (b :: l) := by
  rintro ⟨u, hu⟩
  injection hu with h1 _
  exact h h1

theorem rfindL_marker_append (p t : List Char) (hnt : containsL finalMarker t = false) :
    rfindL finalMarker (p ++ ("Final Answer:".data ++ t)) = some p.length := by
  have hmne : finalMarker ≠ [] := by decide
  have hocc : finalMarker <+: ((p ++ ("Final Answer:".data ++ t)).drop p.length) := by
    rw [List.drop_left]
    exact List.IsPrefix.trans ⟨[':'], by decide⟩ (List.prefix_append _ _)
  rcases prefix_drop_le_rfindL finalMarker hmne _ p.length hocc with ⟨i, hi, hle⟩
  have hp2 := rfindL_some_prefix finalMarker _ i hi
  have hige : i ≤ p.length := by
    by_contra hgt
    push_neg at hgt
    obtain ⟨d, hd, hd1⟩ : ∃ d, i = p.length + d ∧ 1 ≤ d :=
      ⟨i - p.length, by omega, by omega⟩
    rw [hd, List.drop_append] at hp2
    rcases le_or_lt d 12 with hd12 | hd13
    · have : ("Final Answer:".data ++ t).drop d = "Final Answer:".data.drop d ++ t :=
        List.drop_append_of_le_length (by simp; omega)
      rw [this] at hp2
      interval_cases d <;> exact head_mismatch_not_prefix (by decide) hp2
    · obtain ⟨e, he⟩ : ∃ e, d = 13 + e := ⟨d - 13, by omega⟩
      have h13 : ("Final Answer:".data).length = 13 := by decide
      rw [he, ← h13, List.drop_append] at hp2
      have : containsL finalMarker t = true := (containsL_iff finalMarker t).mpr ⟨e, hp2⟩
      simp [this] at hnt
  have : i = p.length := Nat.le_antisymm hige hle
  rw [this] at hi
  exact hi

theorem extractFinal_marker (p t : String) (hnt : pyContains t "Final Answer" = false) :
    extractFinal (p ++ "Final Answer:" ++ t) = t := by
  have hdata : (p ++ "Final Answer:" ++ t).data = p.data ++ ("Final Answer:".data ++ t.data) := by
    simp [String.data_append]
  have hrf : rfindL finalMarker (p ++ "Final Answer:" ++ t).data = some p.data.length := by
    rw [hdata]
    exact rfindL_marker_append p.data t.data hnt
  have h13 : ("Final Answer:".data).length = 13 := by decide
  simp only [extractFinal, hrf]
  rw [hdata]
  have hlen : ("Final Answer:" : String).length = 13 := by decide
  rw [hlen]
  have : p.data.length + 13 = (p.data ++ "Final Answer:".data).length := by
    simp [List.length_append, h13]
  rw [← List.append_assoc, this, List.drop_left]

theorem extractFinal_no_marker (s : String) (h : pyContains s "Final Answer" = false) :
    extractFinal s = s := by
  have : rfindL finalMarker s.data = none := (rfindL_none_iff finalMarker s.data).mpr h
  simp [extractFinal, this]

/-- C5: for every generated response of the form `p ++ "Final Answer:" ++ t`
whose tail `t` contains no further occurrence of the marker (so the last
occurrence of `"Final Answer"` is the displayed one), the extraction step of
`PromptBased.invoke` yields exactly the substring `t` following the marker
and its trailing colon; and every response not containing the marker is used
unmodified.  `extractFinal` is exactly the slice
`generated_response[ind + len("Final Answer:"):]` at
`ind = generated_response.rfind("Final Answer")`, and `PromptBased.cycleTry`
feeds its output into `PromptBased.critique`. -/
theorem C5_final_answer_extraction :
    (∀ p t : String, pyContains t "Final Answer" = false →
      extractFinal (p ++ "Final Answer:" ++ t) = t) ∧
    (∀ s : String, pyContains s "Final Answer" = false → extractFinal s = s) :=
  ⟨extractFinal_marker, extractFinal_no_marker⟩

/-- C5 witness: concrete instances of both conjuncts. -/
theorem C5_witness :
    extractFinal ("so: " ++ "Final Answer:" ++ " 4") = " 4" ∧ extractFinal "hello" = "hello" :=
  ⟨C5_final_answer_extraction.1 "so: " " 4" (by decide),
   C5_final_answer_extraction.2 "hello" (by decide)⟩

/-! ### Split lemmas for the trace-file path -/

theorem pySplitChar_ne_nil (sep : Char) : ∀ l, pySplitChar sep l ≠ [] := by
  intro l
  induction l with
  | nil => simp [pySplitChar]
  | cons c rest ih =>
    by_cases hc : c = sep
    · simp [pySplitChar, hc]
    · cases hr : pySplitChar sep rest with
      | nil => exact absurd hr ih
      | cons h t => simp [pySplitChar, hc, hr]

theorem nosep_pySplitChar (sep : Char) : ∀ l, sep ∉ l → pySplitChar sep l = [l] := by
  intro l
  induction l with
  | nil => intro _; rfl
  | cons c rest ih =>
    intro h
    have hc : ¬ c = sep := fun he => h (by simp [he])
    have hrest : sep ∉ rest := fun hm => h (List.mem_cons_of_mem c hm)
    simp [pySplitChar, hc, ih hrest]

theorem pySplitChar_singleton_nosep (sep : Char) :
    ∀ l h, pySplitChar sep l = [h] → sep ∉ l := by
  intro l
  induction l with
  | nil => intro h _; simp
  | cons c rest ih =>
    intro h hsp
    by_cases hc : c = sep
    · exfalso
      rw [pySplitChar, if_pos hc] at hsp
      have := pySplitChar_ne_nil sep rest
      cases hr : pySplitChar sep rest with
      | nil => exact this hr
      | cons x xs => rw [hr] at hsp; simp at hsp
    · cases hr : pySplitChar sep rest with
      | nil => exact absurd hr (pySplitChar_ne_nil sep rest)
      | cons x xs =>
        rw [pySplitChar, if_neg hc, hr] at hsp
        simp at hsp
        rcases hsp with ⟨-, hxs⟩
        have : sep ∉ rest := ih x (by rw [hr, hxs])
        simp [hc]
        constructor
        · exact fun he => hc he.symm
        · exact this

theorem takeWhile_append_neg (p : Char → Bool) (c : Char) (hc : p c = false) :
    ∀ xs : List Char, (xs ++ [c]).takeWhile p = xs.takeWhile p := by
  intro xs
  induction xs with
  | nil => simp [List.takeWhile, hc]
  | cons x xs' ih =>
    cases hp : p x with
    | false => simp [List.takeWhile, hp]
    | true => simp [List.takeWhile, hp, ih]

theorem pySplitChar_getLast (sep : Char) :
    ∀ l, (pySplitChar sep l).getLast? =
      some ((l.reverse.takeWhile (fun x => x != sep)).reverse) := by
  intro l
  induction l with
  | nil => simp [pySplitChar]
  | cons c rest ih =>
    by_cases hc : c = sep
    · have hpc : (fun x => x != sep) c = false := by simp [hc]
      have hA : ((c :: rest).reverse.takeWhile (fun x => x != sep)).reverse =
          (rest.reverse.takeWhile (fun x => x != sep)).reverse := by
        rw [List.reverse_cons, takeWhile_append_neg (fun x => x != sep) c hpc]
      rw [hA]
      cases hr : pySplitChar sep rest with
      | nil => exact absurd hr (pySplitChar_ne_nil sep rest)
      | cons h t =>
        rw [pySplitChar, if_pos hc, hr]
        rw [List.getLast?_cons_cons]
        rw [← hr]
        exact ih
    · by_cases hmem : sep ∈ rest
      · have hA : ((c :: rest).reverse.takeWhile (fun x => x != sep)).reverse =
            (rest.reverse.takeWhile (fun x => x != sep)).reverse := by
          rw [List.reverse_cons, List.takeWhile_append]
          have hne : ¬ (rest.reverse.takeWhile (fun x => x != sep)).length = rest.reverse.length := by
            intro hlen
            have heq : rest.reverse.takeWhile (fun x => x != sep) = rest.reverse :=
              List.IsPrefix.eq_of_length (List.takeWhile_prefix _) hlen
            have := List.takeWhile_eq_self_iff.mp heq sep (by simp [hmem])
            simp at this
          rw [if_neg hne]
        rw [hA]
        cases hr : pySplitChar sep rest with
        | nil => exact absurd hr (pySplitChar_ne_nil sep rest)
        | cons h t =>
          cases t with
          | nil =>
            exact absurd hmem (pySplitChar_singleton_nosep sep rest h hr)
          | cons t1 t2 =>
            rw [pySplitChar, if_neg hc, hr]
            rw [List.getLast?_cons_cons, ← List.getLast?_cons_cons (a := h) (b := t1), ← hr]
            exact ih
      · have htw : rest.reverse.takeWhile (fun x => x != sep) = rest.reverse := by
          rw [List.takeWhile_eq_self_iff]
          intro x hx
          simp
          intro he
          exact hmem (by simpa [he] using List.mem_reverse.mp hx)
        have hA : ((c :: rest).reverse.takeWhile (fun x => x != sep)).reverse = c :: rest := by
          rw [List.reverse_cons, List.takeWhile_append, htw]
          have hb : (c != sep) = true := by simp [hc]
          simp [List.takeWhile, hb]
        rw [hA]
        rw [pySplitChar, if_neg hc, nosep_pySplitChar sep rest hmem]
        simp

theorem pySplitChar_head (sep : Char) :
    ∀ l, (pySplitChar sep l).headD [] = l.takeWhile (fun x => x != sep) := by
  intro l
  induction l with
  | nil => simp [pySplitChar]
  | cons c rest ih =>
    by_cases hc : c = sep
    · have hb : (c != sep) = false := by simp [hc]
      simp [pySplitChar, hc, List.takeWhile, hb]
    · have hb : (c != sep) = true := by simp [hc]
      cases hr : pySplitChar sep rest with
      | nil => exact absurd hr (pySplitChar_ne_nil sep rest)
      | cons h t =>
        rw [pySplitChar, if_neg hc, hr]
        have : h = rest.takeWhile (fun x => x != sep) := by
          have := ih
          rw [hr] at this
          simpa using this
        simp [List.takeWhile, hb, this]

/-- The trailing `/`-separated segment of a model identifier, following the
spec's words: the suffix of the name after its last `/` (the whole name
when there is none). -/
def trailingSeg (s : String) : String :=
  String.mk ((s.data.reverse.takeWhile (fun c => c != '/')).reverse)

/-- The segment of the session id before the first hyphen, following the
spec's words. -/
def preHyphenSeg (s : String) : String :=
  String.mk (s.data.takeWhile (fun c => c != '-'))

/-- The spec's description of the persisted trace path, for comparison with
the source-derived `savePath`: the pattern
`prompt_results/\x7bprompt_type\x7d_\x7bprompt_pattern\x7d_G_..._C_..._..._.txt` with
model short names the trailing `/`-segment and the session-id prefix the
segment before the first hyphen. -/
def savePathSpec (agent : Agent) : String :=
  "prompt_results/" ++ agent.prompt_type ++ "_" ++ agent.prompt_pattern ++ "_G_" ++
    trailingSeg agent.generator_llm.model_name ++ "_C_" ++
    trailingSeg agent.critique_llm.model_name ++ "_" ++
    preHyphenSeg agent.session_id ++ "_.txt"

/-- C9: the persisted trace path of `PromptBased.invoke` is exactly the
spec's pattern — short names are the trailing `/`-separated segment of the
model identifiers and the session-id prefix is the segment before the first
hyphen — and it is a pure deterministic function of the five identifying
fields: two agents agreeing on those fields get the same path, whatever
their other configuration. -/
theorem C9_trace_path :
    (∀ agent : Agent, savePath agent = savePathSpec agent) ∧
    (∀ a1 a2 : Agent, a1.prompt_type = a2.prompt_type →
      a1.prompt_pattern = a2.prompt_pattern →
      a1.generator_llm.model_name = a2.generator_llm.model_name →
      a1.critique_llm.model_name = a2.critique_llm.model_name →
      a1.session_id = a2.session_id → savePath a1 = savePath a2) := by
  constructor
  · intro agent
    unfold savePath savePathSpec trailingSeg preHyphenSeg
    rw [List.getLastD_eq_getLast?, List.getLastD_eq_getLast?,
      pySplitChar_getLast, pySplitChar_getLast, pySplitChar_head]
    rfl
  · intro a1 a2 h1 h2 h3 h4 h5
    simp [savePath, h1, h2, h3, h4, h5]

/-- A concrete agent family used by the witness and counterexample
theorems: fixed identifiers, flag and script parameters. -/
def testAgent (N : Nat) (gspfc csrs cspfc : Bool)
    (gs cs : Nat → Except String PyVal) : Agent :=
  { max_iterations := N
    system_prompt := "{query}"
    prompt_type := "t"
    prompt_pattern := "p"
    session_id := "abc-123"
    generator_llm :=
      { supports_response_schema := false
        supports_parallel_function_calling := gspfc
        model_name := "prov/genm"
        script := gs }
    critique_llm :=
      { supports_response_schema := csrs
        supports_parallel_function_calling := cspfc
        model_name := "prov/critm"
        script := cs } }

/-- C9 witness: two agents sharing only the identifying fields (they differ
in iteration budget, capability flags and scripts) receive identical trace
paths. -/
theorem C9_witness :
    savePath (testAgent 1 false false false (fun _ => .ok (.vstr "a")) (fun _ => .ok (.vstr "b")))
      = savePath (testAgent 9 true true true (fun _ => .error "x") (fun _ => .error "y")) :=
  C9_trace_path.2 _ _ rfl rfl rfl rfl rfl

/-! ### How one `generate` call transforms the state -/

/-- The state after a successful critic-backend `generate` on prompt `p`
that returned the truthy content `v`: the formatted prompt is appended as a
user message, `v` as an assistant message, and the critic call count grows
by one. -/
def critCallSt (agent : Agent) (p : String) (st : St) (v : PyVal) : St :=
  { st with
    messages := st.messages ++ [.vuser (.vstr (fmtQuery agent.system_prompt p)), .vai v]
    critCalls := st.critCalls + 1 }

/-- The analogous state for a generator-backend `generate`. -/
def genCallSt (agent : Agent) (p : String) (st : St) (v : PyVal) : St :=
  { st with
    messages := st.messages ++ [.vuser (.vstr (fmtQuery agent.system_prompt p)), .vai v]
    genCalls := st.genCalls + 1 }

theorem generate_crit_qstr_ok (agent : Agent) (p : String) (st : St) (v : PyVal)
    (hs : agent.critique_llm.script st.critCalls = .ok v) (ht : truthy v = true) :
    PromptBased.generate agent false (.qstr p) st = .ok (some v, critCallSt agent p st v) := by
  unfold PromptBased.generate PromptBased.update_chat_history llmOf critCallSt
  simp [hs, ht]

theorem generate_gen_qstr_ok (agent : Agent) (p : String) (st : St) (v : PyVal)
    (hs : agent.generator_llm.script st.genCalls = .ok v) (ht : truthy v = true) :
    PromptBased.generate agent true (.qstr p) st = .ok (some v, genCallSt agent p st v) := by
  unfold PromptBased.generate PromptBased.update_chat_history llmOf genCallSt
  simp [hs, ht]

/-! ### How `grade` behaves under each selected strategy -/

theorem grade_structured_ok (agent : Agent) (q g c : String) (st : St) (b : Bool)
    (hcond : (agent.critique_llm.supports_response_schema &&
      agent.critique_llm.supports_parallel_function_calling) = true)
    (hs : agent.critique_llm.script st.critCalls = .ok (.vnode b)) :
    PromptBased.grade agent false q g c st =
      .ok (.vbool b, critCallSt agent (gradePrompt q g c) st (.vnode b)) := by
  unfold PromptBased.grade llmOf
  simp [hcond, generate_crit_qstr_ok agent (gradePrompt q g c) st (.vnode b) hs rfl]

theorem grade_fn_ok_str (agent : Agent) (q g c : String) (st : St) (s : String)
    (hcond : (agent.critique_llm.supports_response_schema &&
      agent.critique_llm.supports_parallel_function_calling) = false)
    (hspfc : agent.critique_llm.supports_parallel_function_calling = true)
    (hs : agent.critique_llm.script st.critCalls = .ok (.vstr s)) (hne : s ≠ "") :
    PromptBased.grade agent false q g c st =
      .ok (.vbool (pyContains (pyLower s) "true"),
        critCallSt agent (gradePrompt q g c) st (.vstr s)) := by
  have ht : truthy (.vstr s) = true := by simp [truthy, hne]
  have hsrs : agent.critique_llm.supports_response_schema = false := by
    rw [hspfc] at hcond
    simpa using hcond
  unfold PromptBased.grade gradeTail llmOf
  simp [hsrs, hspfc, generate_crit_qstr_ok agent (gradePrompt q g c) st (.vstr s) hs ht]

theorem grade_plain_ok_str (agent : Agent) (q g c : String) (st : St) (s : String)
    (hspfc : agent.critique_llm.supports_parallel_function_calling = false)
    (hs : agent.critique_llm.script st.critCalls = .ok (.vstr s)) (hne : s ≠ "") :
    PromptBased.grade agent false q g c st =
      .ok (.vbool (gradeTextDecision s),
        critCallSt agent (gradePrompt q g c) st (.vstr s)) := by
  have ht : truthy (.vstr s) = true := by simp [truthy, hne]
  unfold PromptBased.grade gradeTail llmOf
  simp [hspfc, generate_crit_qstr_ok agent (gradePrompt q g c) st (.vstr s) hs ht]

/-- The spec's plain-text grading normalization rule, in the spec's own
words: trim and lowercase the reply; true iff the normalized text equals
"true", or contains "true" without also containing "false". -/
def specNormGrade (s : String) : Bool :=
  let t := pyLower (pyStrip s)
  decide (t = "true") || (pyContains t "true" && !(pyContains t "false"))

theorem gradeTextDecision_eq_spec (s : String) : gradeTextDecision s = specNormGrade s := by
  unfold gradeTextDecision specNormGrade
  by_cases h : pyLower (pyStrip s) = "true" <;> simp [h]

/-- C4 counterexample backend: the critic answers the grading prompt with
the empty string. -/
def a4c : Agent := testAgent 1 false false false (fun _ => .ok (.vstr "42")) (fun _ => .ok (.vstr ""))

/-- C4 counterexample: under the plain-text path an empty backend reply
does NOT yield false — `generate` returns `None` for falsy content and the
grading step raises `AttributeError` at `grade_result.strip()`, contrary to
the claim that the empty reply yields false without an error. -/
theorem C4_counterexample :
    gradeErrName (PromptBased.grade a4c false "q" "g" "c" (initSt [])) = some "AttributeError" := by
  rfl

/-- C4 (amended): under the plain-text grading path the returned boolean
equals the spec's normalization rule for every NON-EMPTY textual backend
reply — in particular "True" yields true, "false." yields false, "I think
true" yields true, "true or false" yields false — but the empty reply ""
raises `AttributeError` instead of yielding false (the claim's final clause
fails; see `C4_counterexample`). -/
theorem C4_plain_text_normalization :
    (∀ (agent : Agent) (q g c : String) (st : St) (s : String),
      agent.critique_llm.supports_parallel_function_calling = false →
      agent.critique_llm.script st.critCalls = .ok (.vstr s) → s ≠ "" →
      PromptBased.grade agent false q g c st =
        .ok (.vbool (specNormGrade s), critCallSt agent (gradePrompt q g c) st (.vstr s))) ∧
    specNormGrade "True" = true ∧ specNormGrade "false." = false ∧
    specNormGrade "I think true" = true ∧ specNormGrade "true or false" = false := by
  refine ⟨?_, by decide, by decide, by decide, by decide⟩
  intro agent q g c st s hspfc hs hne
  rw [grade_plain_ok_str agent q g c st s hspfc hs hne, gradeTextDecision_eq_spec]

/-- C4 witness backend: the critic replies "I think true". -/
def a4w : Agent :=
  testAgent 1 false false false (fun _ => .ok (.vstr "42")) (fun _ => .ok (.vstr "I think true"))

/-- C4 witness: the amended theorem applied at a concrete agent and reply. -/
theorem C4_witness :
    gradeVal (PromptBased.grade a4w false "q" "g" "c" (initSt [])) = some (.vbool true) := by
  rw [C4_plain_text_normalization.1 a4w "q" "g" "c" (initSt []) "I think true" rfl rfl
    (by decide)]
  rfl

/-- C3 counterexample backend: structured output and parallel function
calling both advertised; the critic's first reply to the grading prompt is
plain text (not a `GradeNode`), its second reply contains "true". -/
def a3c : Agent := testAgent 1 false true true (fun _ => .ok (.vstr "42"))
  (fun n => .ok (.vstr (if n = 0 then "not a structured object" else "sure, true")))

/-- C3 counterexample: with the structured-schema path selected and its
result malformed, grading performs a SECOND backend call belonging to the
function-calling top-level strategy and returns that strategy's verdict —
refuting the claim that the dispatch does not fall through across the
top-level strategies. -/
theorem C3_counterexample :
    gradeCritCalls (PromptBased.grade a3c false "q" "g" "c" (initSt [])) = some 2 ∧
    gradeVal (PromptBased.grade a3c false "q" "g" "c" (initSt [])) = some (.vbool true) :=
  ⟨rfl, rfl⟩

/-- C3 (amended): when the structured-schema path is selected (the backend
advertises structured output and the critic backend advertises parallel
function calling) but its result is not a `GradeNode`, `PromptBased.grade`
falls through into `gradeTail` — the function-calling strategy when that
flag is set (always, at the loop's call site where `llm` IS the critic),
else the plain-text strategy.  Only inside the function-calling branch is
there an internal text-content fallback. -/
theorem C3_structured_fallthrough :
    ∀ (agent : Agent) (isGen : Bool) (q g c : String) (st : St) (r : Option PyVal) (st1 : St),
      ((llmOf agent isGen).supports_response_schema &&
        agent.critique_llm.supports_parallel_function_calling) = true →
      PromptBased.generate agent isGen (.qstr (gradePrompt q g c)) st = .ok (r, st1) →
      (∀ b, r ≠ some (.vnode b)) →
      PromptBased.grade agent isGen q g c st = gradeTail agent isGen (gradePrompt q g c) st1 := by
  intro agent isGen q g c st r st1 hcond hgen hr
  unfold PromptBased.grade
  rw [hcond]
  cases r with
  | none => simp [hgen]
  | some v =>
    cases v with
    | vnone => simp [hgen]
    | vstr s => simp [hgen]
    | vbool b => simp [hgen]
    | vnode b => exact absurd rfl (hr b)
    | vuser c0 => simp [hgen]
    | vai c0 => simp [hgen]
    | vdict es => simp [hgen]

/-- C3 witness: the amended theorem applied at the counterexample agent,
with the malformed structured result supplied concretely. -/
theorem C3_witness :
    PromptBased.grade a3c false "q" "g" "c" (initSt []) =
      gradeTail a3c false (gradePrompt "q" "g" "c")
        (genSt (PromptBased.generate a3c false (.qstr (gradePrompt "q" "g" "c")) (initSt []))) :=
  C3_structured_fallthrough a3c false "q" "g" "c" (initSt [])
    (some (.vstr "not a structured object")) _ rfl rfl (by decide)

/-- Shapes of a list query's last element handled by NO branch of
`update_chat_history`: neither a `UserMessage` object nor a dictionary. -/
def unhandledShape : PyVal → Bool
  | .vuser _ => false
  | .vdict _ => false
  | _ => true

/-- A neutral agent for the history-update theorems. -/
def a7 : Agent := testAgent 1 false false false (fun _ => .ok (.vstr "42")) (fun _ => .ok (.vstr "ok"))

/-- The C7 counterexample query: a list whose last element is a raw mapping
with role "assistant". -/
def q7dict : PyVal := .vdict [("role", .dstr "assistant"), ("content", .dstr "hi")]

/-- C7 counterexample: for a list query ending in a role-"assistant"
mapping, `update_chat_history` does NOT leave the conversation state
unchanged — `agent.messages.extend(query)` still runs and appends the raw
mapping, refuting the claimed silent no-op for this input. -/
theorem C7_counterexample :
    (uchSt (PromptBased.update_chat_history a7 (.qlist [q7dict])
      (initSt [.vuser (.vstr "m0")]))).messages = [.vuser (.vstr "m0"), q7dict] := by
  rfl

/-- C7 (amended): a list query whose last element is a mapping with a role
other than "user" is extended onto the conversation state unmodified (not a
no-op); the silent no-op arises exactly when the last element is neither a
`UserMessage` object nor a mapping (e.g. an `AIMessage` object). -/
theorem C7_unhandled_query_shapes :
    (∀ (agent : Agent) (st : St) (l : List PyVal) (es : List (String × DVal)) (v : DVal),
      l.getLast? = some (.vdict es) → List.lookup "role" es = some v → v ≠ .dstr "user" →
      PromptBased.update_chat_history agent (.qlist l) st =
        .ok { st with messages := st.messages ++ l }) ∧
    (∀ (agent : Agent) (st : St) (l : List PyVal) (x : PyVal),
      l.getLast? = some x → unhandledShape x = true →
      PromptBased.update_chat_history agent (.qlist l) st = .ok st) := by
  constructor
  · intro agent st l es v hlast hrole hne
    simp only [PromptBased.update_chat_history]
    rw [hlast]
    simp [hrole, hne]
  · intro agent st l x hlast hx
    simp only [PromptBased.update_chat_history]
    rw [hlast]
    cases x with
    | vnone => rfl
    | vstr s => rfl
    | vbool b => rfl
    | vnode b => rfl
    | vuser c0 => simp [unhandledShape] at hx
    | vai c0 => rfl
    | vdict es => simp [unhandledShape] at hx

/-- C7 witness: both amended behaviors at concrete inputs — the
role-"assistant" mapping is appended raw; an `AIMessage` last element is
silently ignored. -/
theorem C7_witness :
    PromptBased.update_chat_history a7 (.qlist [q7dict]) (initSt []) =
      .ok { initSt [] with messages := (initSt []).messages ++ [q7dict] } ∧
    PromptBased.update_chat_history a7 (.qlist [.vai (.vstr "x")]) (initSt []) =
      .ok (initSt []) :=
  ⟨C7_unhandled_query_shapes.1 a7 (initSt []) [q7dict]
      [("role", .dstr "assistant"), ("content", .dstr "hi")] (.dstr "assistant") rfl rfl
      (by decide),
   C7_unhandled_query_shapes.2 a7 (initSt []) [.vai (.vstr "x")] (.vai (.vstr "x")) rfl rfl⟩

theorem update_chat_history_messages_append (agent : Agent) (q : Query) (st : St) :
    ∃ t, (uchSt (PromptBased.update_chat_history agent q st)).messages = st.messages ++ t := by
  cases q with
  | qstr s =>
    exact ⟨[.vuser (.vstr (fmtQuery agent.system_prompt s))],
      by simp [PromptBased.update_chat_history, uchSt]⟩
  | qlist l =>
    cases hlast : l.getLast? with
    | none => exact ⟨[], by simp [PromptBased.update_chat_history, hlast, uchSt]⟩
    | some last =>
      cases last with
      | vnone => exact ⟨[], by simp [PromptBased.update_chat_history, hlast, uchSt]⟩
      | vstr s => exact ⟨[], by simp [PromptBased.update_chat_history, hlast, uchSt]⟩
      | vbool b => exact ⟨[], by simp [PromptBased.update_chat_history, hlast, uchSt]⟩
      | vnode b => exact ⟨[], by simp [PromptBased.update_chat_history, hlast, uchSt]⟩
      | vai c0 => exact ⟨[], by simp [PromptBased.update_chat_history, hlast, uchSt]⟩
      | vuser c0 => exact ⟨l, by simp [PromptBased.update_chat_history, hlast, uchSt]⟩
      | vdict es =>
        cases hrole : List.lookup "role" es with
        | none =>
          exact ⟨[], by simp [PromptBased.update_chat_history, hlast, hrole, uchSt]⟩
        | some rv =>
          by_cases hrv : rv = .dstr "user"
          · cases hcv : List.lookup "content" es with
            | none =>
              exact ⟨[], by simp [PromptBased.update_chat_history, hlast, hrole, hrv, hcv, uchSt]⟩
            | some cv =>
              exact ⟨l.dropLast ++ [.vuser (.vstr (fmtQuery agent.system_prompt (pyFormatD cv)))],
                by simp [PromptBased.update_chat_history, hlast, hrole, hrv, hcv, uchSt]⟩
          · exact ⟨l, by simp [PromptBased.update_chat_history, hlast, hrole, hrv, uchSt]⟩

theorem generate_messages_append (agent : Agent) (isGen : Bool) (q : Query) (st : St) :
    ∃ t, (genSt (PromptBased.generate agent isGen q st)).messages = st.messages ++ t := by
  obtain ⟨t, ht⟩ := update_chat_history_messages_append agent q st
  cases hu : PromptBased.update_chat_history agent q st with
  | error e =>
    rw [hu] at ht
    refine ⟨t, ?_⟩
    rcases e with ⟨e1, s1⟩
    simp only [PromptBased.generate, hu]
    simpa [uchSt, genSt] using ht
  | ok st1 =>
    rw [hu] at ht
    simp only [uchSt] at ht
    cases isGen with
    | false =>
      cases hscript : (llmOf agent false).script st1.critCalls with
      | error e => exact ⟨t, by simp [PromptBased.generate, hu, hscript, genSt, ht]⟩
      | ok v =>
        by_cases htr : truthy v = true
        · exact ⟨t ++ [.vai v], by simp [PromptBased.generate, hu, hscript, genSt, htr, ht]⟩
        · rw [Bool.not_eq_true] at htr
          exact ⟨t, by simp [PromptBased.generate, hu, hscript, genSt, htr, ht]⟩
    | true =>
      cases hscript : (llmOf agent true).script st1.genCalls with
      | error e => exact ⟨t, by simp [PromptBased.generate, hu, hscript, genSt, ht]⟩
      | ok v =>
        by_cases htr : truthy v = true
        · exact ⟨t ++ [.vai v], by simp [PromptBased.generate, hu, hscript, genSt, htr, ht]⟩
        · rw [Bool.not_eq_true] at htr
          exact ⟨t, by simp [PromptBased.generate, hu, hscript, genSt, htr, ht]⟩

/-- C8: the conversation state is append-only across the history-update and
generate operations: whether the call returns or raises, the new message
list is the old one with a (possibly empty) suffix appended — prior entries
are never reordered, replaced or mutated — and the length never
decreases. -/
theorem C8_append_only :
    ∀ (agent : Agent) (isGen : Bool) (q : Query) (st : St),
      (∃ t, (uchSt (PromptBased.update_chat_history agent q st)).messages = st.messages ++ t) ∧
      st.messages.length ≤ (uchSt (PromptBased.update_chat_history agent q st)).messages.length ∧
      (∃ t, (genSt (PromptBased.generate agent isGen q st)).messages = st.messages ++ t) ∧
      st.messages.length ≤ (genSt (PromptBased.generate agent isGen q st)).messages.length := by
  intro agent isGen q st
  obtain ⟨t1, h1⟩ := update_chat_history_messages_append agent q st
  obtain ⟨t2, h2⟩ := generate_messages_append agent isGen q st
  exact ⟨⟨t1, h1⟩, by rw [h1]; simp, ⟨t2, h2⟩, by rw [h2]; simp⟩

/-- The user message `generate` appends when handed prompt `p` as a raw
string. -/
def promptMsg (agent : Agent) (p : String) : PyVal :=
  .vuser (.vstr (fmtQuery agent.system_prompt p))

theorem generate_crit_qstr_eq (agent : Agent) (p : String) (st : St) :
    PromptBased.generate agent false (.qstr p) st =
      match agent.critique_llm.script st.critCalls with
      | .error e => .error (e,
          { st with
            messages := st.messages ++ [promptMsg agent p]
            critCalls := st.critCalls + 1 })
      | .ok v =>
        if truthy v = true then .ok (some v, critCallSt agent p st v)
        else .ok (none,
          { st with
            messages := st.messages ++ [promptMsg agent p]
            critCalls := st.critCalls + 1 }) := by
  cases hs : agent.critique_llm.script st.critCalls with
  | error e =>
    simp [PromptBased.generate, PromptBased.update_chat_history, llmOf, hs, promptMsg]
  | ok v =>
    by_cases ht : truthy v = true
    · simp [PromptBased.generate, PromptBased.update_chat_history, llmOf, hs, ht, critCallSt,
        promptMsg]
    · rw [Bool.not_eq_true] at ht
      simp [PromptBased.generate, PromptBased.update_chat_history, llmOf, hs, ht, promptMsg]

theorem generate_gen_qstr_eq (agent : Agent) (p : String) (st : St) :
    PromptBased.generate agent true (.qstr p) st =
      match agent.generator_llm.script st.genCalls with
      | .error e => .error (e,
          { st with
            messages := st.messages ++ [promptMsg agent p]
            genCalls := st.genCalls + 1 })
      | .ok v =>
        if truthy v = true then .ok (some v, genCallSt agent p st v)
        else .ok (none,
          { st with
            messages := st.messages ++ [promptMsg agent p]
            genCalls := st.genCalls + 1 }) := by
  cases hs : agent.generator_llm.script st.genCalls with
  | error e =>
    simp [PromptBased.generate, PromptBased.update_chat_history, llmOf, hs, promptMsg]
  | ok v =>
    by_cases ht : truthy v = true
    · simp [PromptBased.generate, PromptBased.update_chat_history, llmOf, hs, ht, genCallSt,
        promptMsg]
    · rw [Bool.not_eq_true] at ht
      simp [PromptBased.generate, PromptBased.update_chat_history, llmOf, hs, ht, promptMsg]

theorem truthy_vbool (b : Bool) : truthy (.vbool b) = b := rfl

theorem cycle_plain_steps (agent : Agent) (q : String) (i : Nat) (st : St)
    (a cr gr : String)
    (hspfc : agent.critique_llm.supports_parallel_function_calling = false)
    (hg : agent.generator_llm.script st.genCalls = .ok (.vstr a)) (ha : a ≠ "")
    (hc : agent.critique_llm.script st.critCalls = .ok (.vstr cr)) (hcr : cr ≠ "")
    (hgr : agent.critique_llm.script (st.critCalls + 1) = .ok (.vstr gr)) (hgr2 : gr ≠ "") :
    cycGo (PromptBased.cycle agent q i st) = some (.vbool (gradeTextDecision gr)) ∧
    cycGex (PromptBased.cycle agent q i st) = some (extractFinal a) ∧
    (seqSt (PromptBased.cycle agent q i st)).messages = st.messages ++
      [promptMsg agent q, .vai (.vstr a),
       promptMsg agent (critiquePrompt q (extractFinal a)), .vai (.vstr cr),
       promptMsg agent (gradePrompt q (extractFinal a) cr), .vai (.vstr gr)] := by
  have ht1 : truthy (.vstr a) = true := by simp [truthy, ha]
  have ht2 : truthy (.vstr cr) = true := by simp [truthy, hcr]
  have ht3 : truthy (.vstr gr) = true := by simp [truthy, hgr2]
  cases hgd : gradeTextDecision gr <;>
    refine ⟨?_, ?_, ?_⟩ <;>
      simp [PromptBased.cycle, PromptBased.cycleTry, PromptBased.critique, PromptBased.grade,
        gradeTail, llmOf, hspfc, generate_gen_qstr_eq, generate_crit_qstr_eq, hg, hc, hgr,
        ht1, ht2, ht3, hgd, truthy_vbool, critCallSt, genCallSt, cycGo, cycGex, seqSt, pyFormat,
        pyFormatOpt, promptMsg, apply_ite]

/-- C10: grading mutates the conversation state.  Under each of the three
strategies (structured schema, function calling, plain text), `grade`
routes its grading prompt through the same `generate` path, appending the
system-prompt-formatted grading prompt as a user message and — when the
backend returns non-empty content — the reply as an assistant message
(`critCallSt` is exactly that two-message growth, plus one critic call);
consequently one completed iteration with truthy replies grows the history
by six messages, two each for generate, critique and grade. -/
theorem C10_grade_mutates_state :
    (∀ (agent : Agent) (q g c : String) (st : St) (b : Bool),
      (agent.critique_llm.supports_response_schema &&
        agent.critique_llm.supports_parallel_function_calling) = true →
      agent.critique_llm.script st.critCalls = .ok (.vnode b) →
      PromptBased.grade agent false q g c st =
        .ok (.vbool b, critCallSt agent (gradePrompt q g c) st (.vnode b)) ∧
      (critCallSt agent (gradePrompt q g c) st (.vnode b)).messages =
        st.messages ++ [promptMsg agent (gradePrompt q g c), .vai (.vnode b)]) ∧
    (∀ (agent : Agent) (q g c : String) (st : St) (s : String),
      (agent.critique_llm.supports_response_schema &&
        agent.critique_llm.supports_parallel_function_calling) = false →
      agent.critique_llm.supports_parallel_function_calling = true →
      agent.critique_llm.script st.critCalls = .ok (.vstr s) → s ≠ "" →
      PromptBased.grade agent false q g c st =
        .ok (.vbool (pyContains (pyLower s) "true"),
          critCallSt agent (gradePrompt q g c) st (.vstr s)) ∧
      (critCallSt agent (gradePrompt q g c) st (.vstr s)).messages =
        st.messages ++ [promptMsg agent (gradePrompt q g c), .vai (.vstr s)]) ∧
    (∀ (agent : Agent) (q g c : String) (st : St) (s : String),
      agent.critique_llm.supports_parallel_function_calling = false →
      agent.critique_llm.script st.critCalls = .ok (.vstr s) → s ≠ "" →
      PromptBased.grade agent false q g c st =
        .ok (.vbool (gradeTextDecision s),
          critCallSt agent (gradePrompt q g c) st (.vstr s)) ∧
      (critCallSt agent (gradePrompt q g c) st (.vstr s)).messages =
        st.messages ++ [promptMsg agent (gradePrompt q g c), .vai (.vstr s)]) ∧
    (∀ (agent : Agent) (q : String) (i : Nat) (st : St) (a cr gr : String),
      agent.critique_llm.supports_parallel_function_calling = false →
      agent.generator_llm.script st.genCalls = .ok (.vstr a) → a ≠ "" →
      agent.critique_llm.script st.critCalls = .ok (.vstr cr) → cr ≠ "" →
      agent.critique_llm.script (st.critCalls + 1) = .ok (.vstr gr) → gr ≠ "" →
      (seqSt (PromptBased.cycle agent q i st)).messages = st.messages ++
        [promptMsg agent q, .vai (.vstr a),
         promptMsg agent (critiquePrompt q (extractFinal a)), .vai (.vstr cr),
         promptMsg agent (gradePrompt q (extractFinal a) cr), .vai (.vstr gr)]) := by
  refine ⟨?_, ?_, ?_, ?_⟩
  · intro agent q g c st b hcond hs
    exact ⟨grade_structured_ok agent q g c st b hcond hs, by simp [critCallSt, promptMsg]⟩
  · intro agent q g c st s hcond hspfc hs hne
    exact ⟨grade_fn_ok_str agent q g c st s hcond hspfc hs hne, by simp [critCallSt, promptMsg]⟩
  · intro agent q g c st s hspfc hs hne
    exact ⟨grade_plain_ok_str agent q g c st s hspfc hs hne, by simp [critCallSt, promptMsg]⟩
  · intro agent q i st a cr gr hspfc hg ha hc hcr hgr hgr2
    exact (cycle_plain_steps agent q i st a cr gr hspfc hg ha hc hcr hgr hgr2).2.2

/-- C10 witness backends: a structured grader, a function-calling grader, a
plain grader, and a full plain cycle. -/
def a10a : Agent := testAgent 1 false true true (fun _ => .ok (.vstr "42"))
  (fun _ => .ok (.vnode true))

/-- C10 function-calling witness agent. -/
def a10b : Agent := testAgent 1 false false true (fun _ => .ok (.vstr "42"))
  (fun _ => .ok (.vstr "yes true"))

/-- C10 plain-text witness agent (used for both the plain grade and the
full-cycle conjuncts). -/
def a10c : Agent := testAgent 1 false false false (fun _ => .ok (.vstr "the Final Answer: 4"))
  (fun _ => .ok (.vstr "nope"))

/-- C10 witness: all four conjuncts applied at concrete agents; in
particular a full plain-path cycle leaves exactly six new messages. -/
theorem C10_witness :
    gradeVal (PromptBased.grade a10a false "q" "g" "c" (initSt [])) = some (.vbool true) ∧
    gradeVal (PromptBased.grade a10b false "q" "g" "c" (initSt [])) = some (.vbool true) ∧
    gradeVal (PromptBased.grade a10c false "q" "g" "c" (initSt [])) = some (.vbool false) ∧
    (seqSt (PromptBased.cycle a10c "wq" 0 (initSt []))).messages.length = 6 := by
  refine ⟨?_, ?_, ?_, ?_⟩
  · rw [(C10_grade_mutates_state.1 a10a "q" "g" "c" (initSt []) true rfl rfl).1]
    rfl
  · rw [(C10_grade_mutates_state.2.1 a10b "q" "g" "c" (initSt []) "yes true" rfl rfl rfl
      (by decide)).1]
    rfl
  · rw [(C10_grade_mutates_state.2.2.1 a10c "q" "g" "c" (initSt []) "nope" rfl rfl
      (by decide)).1]
    rfl
  · rw [C10_grade_mutates_state.2.2.2 a10c "wq" 0 (initSt []) "the Final Answer: 4" "nope" "nope"
      rfl rfl (by decide) rfl (by decide) rfl (by decide)]
    rfl

/-- The outcome of the (n+1)-th cycle on the trajectory starting from state
`st` at iteration index `i`.  The hypotheses of the loop theorems constrain
grading outcomes along this trajectory — exactly the cycles the loop itself
executes. -/
def cycleSeq (agent : Agent) (query : String) : St → Nat → Nat → Except (String × St) (St × PyVal × String)
  | st, i, 0 => PromptBased.cycle agent query i st
  | st, i, n + 1 =>
    match PromptBased.cycle agent query i st with
    | .error e => .error e
    | .ok (st', _, _) => cycleSeq agent query st' (i + 1) n

theorem cycleSeq_zero (agent : Agent) (query : String) (st : St) (i : Nat) :
    cycleSeq agent query st i 0 = PromptBased.cycle agent query i st := rfl

theorem cycleSeq_succ (agent : Agent) (query : String) (st : St) (i n : Nat) :
    cycleSeq agent query st i (n + 1) =
      match PromptBased.cycle agent query i st with
      | .error e => .error e
      | .ok (st', _, _) => cycleSeq agent query st' (i + 1) n := rfl

theorem loop_accept (agent : Agent) (query : String) :
    ∀ (k n i : Nat) (st : St) (last : Option String) (sk : St) (go : PyVal) (gk : String),
      k + 1 ≤ n →
      (∀ j, j < k → ∃ s b g, cycleSeq agent query st i j = .ok (s, b, g) ∧ truthy b = false) →
      cycleSeq agent query st i k = .ok (sk, go, gk) → truthy go = true →
      PromptBased.loop agent query n i st last = .ok (sk, some gk) := by
  intro k
  induction k with
  | zero =>
    intro n i st last sk go gk hn hprev hacc hgo
    obtain ⟨m, rfl⟩ : ∃ m, n = m + 1 := ⟨n - 1, by omega⟩
    have hc : PromptBased.cycle agent query i st = .ok (sk, go, gk) := hacc
    simp only [PromptBased.loop]
    rw [hc]
    simp [hgo]
  | succ k' ih =>
    intro n i st last sk go gk hn hprev hacc hgo
    obtain ⟨m, rfl⟩ : ∃ m, n = m + 1 := ⟨n - 1, by omega⟩
    obtain ⟨s1, b1, g1, hc1, hb1⟩ := hprev 0 (Nat.succ_pos k')
    have hc1' : PromptBased.cycle agent query i st = .ok (s1, b1, g1) := hc1
    simp only [PromptBased.loop]
    rw [hc1']
    simp only [hb1, Bool.false_eq_true, if_false]
    refine ih m (i + 1) s1 (some g1) sk go gk (by omega) ?_ ?_ hgo
    · intro j hj
      have h2 := hprev (j + 1) (by omega)
      rw [cycleSeq_succ, hc1'] at h2
      exact h2
    · have h3 := hacc
      rw [cycleSeq_succ, hc1'] at h3
      exact h3

theorem loop_exhaust (agent : Agent) (query : String) :
    ∀ (n i : Nat) (st : St) (last : Option String) (sN : St) (go : PyVal) (gN : String),
      (∀ j, j < n → ∃ s b g, cycleSeq agent query st i j = .ok (s, b, g) ∧ truthy b = false) →
      cycleSeq agent query st i n = .ok (sN, go, gN) → truthy go = false →
      PromptBased.loop agent query (n + 1) i st last = .ok (sN, some gN) := by
  intro n
  induction n with
  | zero =>
    intro i st last sN go gN hall hlast hgo
    have hc : PromptBased.cycle agent query i st = .ok (sN, go, gN) := hlast
    simp only [PromptBased.loop]
    rw [hc]
    simp [hgo, PromptBased.loop]
  | succ n' ih =>
    intro i st last sN go gN hall hlast hgo
    obtain ⟨s1, b1, g1, hc1, hb1⟩ := hall 0 (Nat.succ_pos n')
    have hc1' : PromptBased.cycle agent query i st = .ok (s1, b1, g1) := hc1
    simp only [PromptBased.loop]
    rw [hc1']
    simp only [hb1, Bool.false_eq_true, if_false]
    refine ih (i + 1) s1 (some g1) sN go gN ?_ ?_ hgo
    · intro j hj
      have h2 := hall (j + 1) (by omega)
      rw [cycleSeq_succ, hc1'] at h2
      exact h2
    · have h3 := hlast
      rw [cycleSeq_succ, hc1'] at h3
      exact h3

theorem loop_error (agent : Agent) (query : String) :
    ∀ (j n i : Nat) (st : St) (last : Option String) (e : String) (sE : St),
      j < n →
      (∀ m, m < j → ∃ s b g, cycleSeq agent query st i m = .ok (s, b, g) ∧ truthy b = false) →
      cycleSeq agent query st i j = .error (e, sE) →
      PromptBased.loop agent query n i st last = .error (e, sE) := by
  intro j
  induction j with
  | zero =>
    intro n i st last e sE hn hprev herr
    obtain ⟨m, rfl⟩ : ∃ m, n = m + 1 := ⟨n - 1, by omega⟩
    have hc : PromptBased.cycle agent query i st = .error (e, sE) := herr
    simp only [PromptBased.loop]
    rw [hc]
  | succ j' ih =>
    intro n i st last e sE hn hprev herr
    obtain ⟨m, rfl⟩ : ∃ m, n = m + 1 := ⟨n - 1, by omega⟩
    obtain ⟨s1, b1, g1, hc1, hb1⟩ := hprev 0 (Nat.succ_pos j')
    have hc1' : PromptBased.cycle agent query i st = .ok (s1, b1, g1) := hc1
    simp only [PromptBased.loop]
    rw [hc1']
    simp only [hb1, Bool.false_eq_true, if_false]
    refine ih m (i + 1) s1 (some g1) e sE (by omega) ?_ ?_
    · intro m' hm'
      have h2 := hprev (m' + 1) (by omega)
      rw [cycleSeq_succ, hc1'] at h2
      exact h2
    · have h3 := herr
      rw [cycleSeq_succ, hc1'] at h3
      exact h3

/-- C1: if grading is falsy on every cycle before `k` and truthy for the
first time on cycle `k ≤ max_iterations`, then `PromptBased.invoke`
performs exactly `k` generate/critique/grade cycles: its whole final state
(messages, both backend call counters, trace) is exactly the state `sk`
produced by cycle `k` — so no backend invoke of any kind happens after the
accepting grade — the loop exits by acceptance, the k-th post-extraction
response is returned, and the trace is persisted from `sk` alone. -/
theorem C1_accepts_at_k (agent : Agent) (query : String) (ms0 : List PyVal) (elapsed : String)
    (k : Nat) (sk : St) (go : PyVal) (gk : String)
    (hk : 1 ≤ k) (hkN : k ≤ agent.max_iterations)
    (hprev : ∀ j, j + 1 < k → ∃ s b g,
      cycleSeq agent query (initSt ms0) 0 j = .ok (s, b, g) ∧ truthy b = false)
    (hacc : cycleSeq agent query (initSt ms0) 0 (k - 1) = .ok (sk, go, gk))
    (hgo : truthy go = true) :
    PromptBased.invoke agent query ms0 elapsed =
      .ok gk (savePath agent) (sk.res ++ finalBlock gk elapsed) sk := by
  obtain ⟨k', rfl⟩ : ∃ k', k = k' + 1 := ⟨k - 1, by omega⟩
  have hl := loop_accept agent query k' agent.max_iterations 0 (initSt ms0) none sk go gk
    (by omega) (fun j hj => hprev j (by omega)) (by simpa using hacc) hgo
  simp only [PromptBased.invoke, hl]

/-- C2: if `max_iterations = N ≥ 1` and grading is falsy on all `N` cycles
(none of which raises), `PromptBased.invoke` executes exactly the `N`
cycles — its final state is the `N`-th cycle's state `sN` — and returns the
`N`-th generated (post-extraction) response, persisting the trace. -/
theorem C2_exhaustion (agent : Agent) (query : String) (ms0 : List PyVal) (elapsed : String)
    (sN : St) (go : PyVal) (gN : String)
    (hN : 1 ≤ agent.max_iterations)
    (hall : ∀ j, j + 1 < agent.max_iterations → ∃ s b g,
      cycleSeq agent query (initSt ms0) 0 j = .ok (s, b, g) ∧ truthy b = false)
    (hlast : cycleSeq agent query (initSt ms0) 0 (agent.max_iterations - 1) = .ok (sN, go, gN))
    (hgo : truthy go = false) :
    PromptBased.invoke agent query ms0 elapsed =
      .ok gN (savePath agent) (sN.res ++ finalBlock gN elapsed) sN := by
  obtain ⟨m, hm⟩ : ∃ m, agent.max_iterations = m + 1 := ⟨agent.max_iterations - 1, by omega⟩
  have hl := loop_exhaust agent query m 0 (initSt ms0) none sN go gN
    (fun j hj => hall j (by omega)) (by rw [← hlast]; congr 1; omega) hgo
  rw [← hm] at hl
  simp only [PromptBased.invoke, hl]

/-- C6: if cycle `j < max_iterations` raises (after falsy grades on all
earlier cycles), `PromptBased.invoke` propagates the same exception
immediately — no retry, no further iteration — with `sE` the state at the
raise; the `RunOut.err` exit carries no file write, so the partial trace in
`sE.res` is never persisted.  Moreover every raising cycle first appends
the error entry for its 1-based iteration number to the trace and then
re-raises the same exception. -/
theorem C6_error_propagation (agent : Agent) (query : String) (ms0 : List PyVal)
    (elapsed : String) (j : Nat) (e : String) (sE : St)
    (hj : j < agent.max_iterations)
    (hprev : ∀ m, m < j → ∃ s b g,
      cycleSeq agent query (initSt ms0) 0 m = .ok (s, b, g) ∧ truthy b = false)
    (herr : cycleSeq agent query (initSt ms0) 0 j = .error (e, sE)) :
    PromptBased.invoke agent query ms0 elapsed = RunOut.err e sE ∧
    (∀ (st : St) (i : Nat) (e0 : String) (st0 : St),
      PromptBased.cycleTry agent query i st = .error (e0, st0) →
      PromptBased.cycle agent query i st =
        .error (e0, { st0 with res := st0.res ++ errEntry e0 (i + 1) })) := by
  constructor
  · have hl := loop_error agent query j agent.max_iterations 0 (initSt ms0) none e sE hj
      hprev herr
    simp only [PromptBased.invoke, hl]
  · intro st i e0 st0 h
    simp [PromptBased.cycle, h]

/-- C1 witness agent: three iterations available, grading truthy on the
second cycle (critic call index 3). -/
def wc1 : Agent := testAgent 3 false false false (fun _ => .ok (.vstr "ans"))
  (fun n => .ok (.vstr (if n = 3 then "true" else "nope")))

/-- C1 witness: on `wc1` the loop accepts on cycle 2 of 3 and returns that
cycle's response. -/
theorem C1_witness : runFinal (PromptBased.invoke wc1 "wq" [] "0.1") = some "ans" := by
  have hprev : ∀ j, j + 1 < 2 → ∃ s b g,
      cycleSeq wc1 "wq" (initSt []) 0 j = .ok (s, b, g) ∧ truthy b = false := by
    intro j hj
    have hj0 : j = 0 := by omega
    subst hj0
    exact ⟨_, _, _, rfl, rfl⟩
  have h := C1_accepts_at_k wc1 "wq" [] "0.1" 2
    (seqSt (cycleSeq wc1 "wq" (initSt []) 0 1)) (.vbool true) "ans"
    (by omega) (by decide) hprev rfl rfl
  rw [h]
  rfl

/-- C2 witness agent: two iterations, grading always falsy. -/
def wc2 : Agent := testAgent 2 false false false (fun _ => .ok (.vstr "ans"))
  (fun _ => .ok (.vstr "nope"))

/-- C2 witness: on `wc2` the loop exhausts both iterations and returns the
second cycle's response. -/
theorem C2_witness : runFinal (PromptBased.invoke wc2 "wq" [] "0.1") = some "ans" := by
  have hall : ∀ j, j + 1 < wc2.max_iterations → ∃ s b g,
      cycleSeq wc2 "wq" (initSt []) 0 j = .ok (s, b, g) ∧ truthy b = false := by
    intro j hj
    have hj0 : j = 0 := by
      have : wc2.max_iterations = 2 := rfl
      omega
    subst hj0
    exact ⟨_, _, _, rfl, rfl⟩
  have h := C2_exhaustion wc2 "wq" [] "0.1"
    (seqSt (cycleSeq wc2 "wq" (initSt []) 0 (wc2.max_iterations - 1))) (.vbool false) "ans"
    (by decide) hall rfl rfl
  rw [h]
  rfl

/-- C6 witness agent: the generator raises on its second call. -/
def wc6 : Agent := testAgent 3 false false false
  (fun n => if n = 1 then .error "boom" else .ok (.vstr "ans"))
  (fun _ => .ok (.vstr "nope"))

/-- C6 witness: on `wc6` the second cycle's generate raises, the exception
propagates out of `invoke` unchanged and no file is written. -/
theorem C6_witness : runErrName (PromptBased.invoke wc6 "wq" [] "0.1") = some "boom" := by
  have hprev : ∀ m, m < 1 → ∃ s b g,
      cycleSeq wc6 "wq" (initSt []) 0 m = .ok (s, b, g) ∧ truthy b = false := by
    intro m hm
    have hm0 : m = 0 := by omega
    subst hm0
    exact ⟨_, _, _, rfl, rfl⟩
  have h := C6_error_propagation wc6 "wq" [] "0.1" 1 "boom"
    (seqSt (cycleSeq wc6 "wq" (initSt []) 0 1)) (by decide) hprev rfl
  rw [h.1]
  rfl
